import Mathlib

/-!
Verification of the release-progress-tracker core of the
camaraproject/project-administration repository.

The Python modules under
`workflows/release-progress-tracker/scripts/` are shallowly embedded here:
`state_deriver.py` (progress-state derivation), `milestone_deriver.py`
(milestone selection and per-cycle summaries), `warnings.py` (the two
built-in validation checks) and `models.py` (the dataclasses and their
`to_dict` serializations).  Optional / nullable Python values are embedded
as `Option`, Python dicts that are only built and looked up as association
lists or update functions, and YAML/JSON values as the inductive `Val`.
Python truthiness (both `None` and `""` are falsy) is embedded explicitly
wherever the source relies on it.
-/

namespace ReleaseProgress

/-- Embedding of Python `str.startswith`: the first string is a prefix of
the second. -/
def startswithB (p s : String) : Bool := p.data.isPrefixOf s.data

/-- Embedding of the Python substring test `t in s`. -/
def substrB (t s : String) : Bool := decide (t.data <:+: s.data)

/-- Collapses an optional string the way `d.get(k, "") or ""` does in
Python: a missing or null value becomes the empty string. -/
def pyStr : Option String → String
  | none => ""
  | some s => s

/-- Python truthiness of an optional string: `None` and `""` are falsy. -/
def optTruthy : Option String → Bool
  | none => false
  | some s => s != ""

/-- The five progress states of `models.ProgressState`. -/
inductive ProgressState where
  | NOT_PLANNED
  | PLANNED
  | SNAPSHOT_ACTIVE
  | DRAFT_READY
  | PUBLISHED
deriving DecidableEq, Repr

/-- The serialized value of a `ProgressState` (its `.value` in Python). -/
def ProgressState.value : ProgressState → String
  | .NOT_PLANNED => "not_planned"
  | .PLANNED => "planned"
  | .SNAPSHOT_ACTIVE => "snapshot_active"
  | .DRAFT_READY => "draft_ready"
  | .PUBLISHED => "published"

/-- A draft-release record as consumed by `state_deriver._has_matching_draft`:
only the `name` and `tag_name` fields are read, each possibly missing or
null (both collapse to `""` at the use site). -/
structure DraftRelease where
  name : Option String
  tag_name : Option String
deriving DecidableEq, Repr

/-- Embedding of `state_deriver.find_matching_snapshot`.  Python returns
`None` for a falsy `target_tag` (both `None` and `""`), otherwise the first
branch starting with `release-snapshot/{target_tag}-`. -/
def find_matching_snapshot (branches : List String) (target_tag : Option String) :
    Option String :=
  match target_tag with
  | none => none
  | some t =>
    if t = "" then none
    else branches.find? (fun branch => startswithB ("release-snapshot/" ++ t ++ "-") branch)

/-- Embedding of `state_deriver._has_matching_draft`.  Python returns
`False` for a falsy `target_tag` or an empty list, otherwise scans for a
draft whose `name` or `tag_name` contains the tag as a substring. -/
def _has_matching_draft (draft_releases : List DraftRelease) (target_tag : Option String) :
    Bool :=
  match target_tag with
  | none => false
  | some t =>
    if t = "" ∨ draft_releases.isEmpty then false
    else draft_releases.any (fun r => substrB t (pyStr r.name) || substrB t (pyStr r.tag_name))

/-- Embedding of `state_deriver.derive_state`.  The decision list of the
source: falsy or `"none"` type, then an existing tag, then a truthy
matching snapshot with or without a matching draft, else planned. -/
def derive_state (target_release_type : Option String) (target_release_tag : Option String)
    (tag_exists : Bool) (snapshot_branches : List String)
    (draft_releases : List DraftRelease) : ProgressState :=
  if optTruthy target_release_type = false ∨ target_release_type = some "none" then
    ProgressState.NOT_PLANNED
  else if tag_exists then
    ProgressState.PUBLISHED
  else
    match find_matching_snapshot snapshot_branches target_release_tag with
    | some branch =>
      -- Python tests the returned branch for truthiness (`if snapshot:`);
      -- the empty-string case is unreachable but embedded faithfully.
      if branch = "" then ProgressState.PLANNED
      else if _has_matching_draft draft_releases target_release_tag then
        ProgressState.DRAFT_READY
      else ProgressState.SNAPSHOT_ACTIVE
    | none => ProgressState.PLANNED

/-- A YAML/JSON value, used for serialized dictionaries (`to_dict` output)
and for payloads the code passes through unchanged (PR records, the
`dependencies` mapping). -/
inductive Val where
  | null : Val
  | str : String → Val
  | bool : Bool → Val
  | num : Int → Val
  | arr : List Val → Val
  | obj : List (String × Val) → Val
deriving Repr

/-- Python truthiness of a `Val`: null, `""`, `False`, `0`, `[]` and `{}`
are falsy. -/
def Val.truthy : Val → Bool
  | .null => false
  | .str s => s != ""
  | .bool b => b
  | .num n => n != 0
  | .arr l => !l.isEmpty
  | .obj l => !l.isEmpty

/-- Serialization of an optional string: null when absent. -/
def optStr : Option String → Val
  | none => .null
  | some s => .str s

/-- Serialization of an optional passed-through value: null when absent. -/
def optVal : Option Val → Val
  | none => .null
  | some v => v

/-- Embedding of `models.ProgressWarning`. -/
structure ProgressWarning where
  code : String
  message : String
  severity : String
deriving DecidableEq, Repr

/-- Embedding of `ProgressWarning.to_dict`. -/
def ProgressWarning.to_dict (w : ProgressWarning) : List (String × Val) :=
  [("code", .str w.code), ("message", .str w.message), ("severity", .str w.severity)]

/-- Embedding of `models.ApiEntry` (an API planned for a release). -/
structure ApiEntry where
  api_name : String
  target_api_version : String
  target_api_status : String
  main_contacts : List String
deriving DecidableEq, Repr

/-- Embedding of `ApiEntry.to_dict`: `main_contacts` is added only when
the list is truthy (non-empty). -/
def ApiEntry.to_dict (a : ApiEntry) : List (String × Val) :=
  let d := [("api_name", Val.str a.api_name),
            ("target_api_version", Val.str a.target_api_version),
            ("target_api_status", Val.str a.target_api_status)]
  if a.main_contacts.isEmpty then d
  else d ++ [("main_contacts", Val.arr (a.main_contacts.map Val.str))]

/-- Embedding of `models.ArtifactInfo`.  The PR / draft / issue records are
opaque payloads built elsewhere and passed through serialization. -/
structure ArtifactInfo where
  snapshot_branch : Option String
  release_pr : Option Val
  draft_release : Option Val
  release_issue : Option Val
deriving Repr

/-- Embedding of `ArtifactInfo.to_dict`: all four keys always present. -/
def ArtifactInfo.to_dict (a : ArtifactInfo) : List (String × Val) :=
  [("snapshot_branch", optStr a.snapshot_branch),
   ("release_pr", optVal a.release_pr),
   ("draft_release", optVal a.draft_release),
   ("release_issue", optVal a.release_issue)]

/-- Embedding of `models.CycleReleaseApi`. -/
structure CycleReleaseApi where
  api_name : String
  api_version : Option String
deriving DecidableEq, Repr

/-- Embedding of `CycleReleaseApi.to_dict`. -/
def CycleReleaseApi.to_dict (a : CycleReleaseApi) : List (String × Val) :=
  [("api_name", .str a.api_name), ("api_version", optStr a.api_version)]

/-- Embedding of `models.MilestoneRelease`. -/
structure MilestoneRelease where
  release_tag : Option String
  release_date : Option String
  apis : List CycleReleaseApi
deriving DecidableEq, Repr

/-- Embedding of `MilestoneRelease.to_dict`. -/
def MilestoneRelease.to_dict (m : MilestoneRelease) : List (String × Val) :=
  [("release_tag", optStr m.release_tag),
   ("release_date", optStr m.release_date),
   ("apis", Val.arr (m.apis.map (fun a => Val.obj a.to_dict)))]

/-- Embedding of `models.CycleReleases`. -/
structure CycleReleases where
  m1 : Option MilestoneRelease
  m3 : Option MilestoneRelease
  m4 : Option MilestoneRelease
deriving DecidableEq, Repr

/-- Embedding of `CycleReleases.to_dict`: an empty dict when all three
milestones are absent, otherwise only the present milestones. -/
def CycleReleases.to_dict (c : CycleReleases) : List (String × Val) :=
  if c.m1 = none ∧ c.m3 = none ∧ c.m4 = none then []
  else
    (match c.m1 with | some m => [("m1", Val.obj m.to_dict)] | none => []) ++
    (match c.m3 with | some m => [("m3", Val.obj m.to_dict)] | none => []) ++
    (match c.m4 with | some m => [("m4", Val.obj m.to_dict)] | none => [])

/-- Embedding of `models.PublishedContext`. -/
structure PublishedContext where
  latest_public_release : Option String
  newest_pre_release : Option String
deriving DecidableEq, Repr

/-- Embedding of `PublishedContext.to_dict`: both keys always present. -/
def PublishedContext.to_dict (p : PublishedContext) : List (String × Val) :=
  [("latest_public_release", optStr p.latest_public_release),
   ("newest_pre_release", optStr p.newest_pre_release)]

/-- Embedding of `models.ProgressEntry`. -/
structure ProgressEntry where
  repository : String
  github_url : String
  release_track : Option String
  meta_release : Option String
  target_release_tag : Option String
  target_release_type : Option String
  dependencies : Option Val
  apis : List ApiEntry
  state : ProgressState
  artifacts : ArtifactInfo
  published_context : PublishedContext
  cycle_releases : CycleReleases
  warnings : List ProgressWarning
deriving Repr

/-- Embedding of `ProgressEntry.to_dict`.  `release_track`, `meta_release`
and `dependencies` are added only when truthy; `warnings` only when
non-empty; the remaining fields always, with explicit nulls. -/
def ProgressEntry.to_dict (e : ProgressEntry) : List (String × Val) :=
  [("repository", Val.str e.repository), ("github_url", Val.str e.github_url)] ++
  (if optTruthy e.release_track then [("release_track", Val.str (pyStr e.release_track))] else []) ++
  (if optTruthy e.meta_release then [("meta_release", Val.str (pyStr e.meta_release))] else []) ++
  [("target_release_tag", optStr e.target_release_tag),
   ("target_release_type", optStr e.target_release_type)] ++
  (match e.dependencies with
   | some v => if v.truthy then [("dependencies", v)] else []
   | none => []) ++
  [("apis", Val.arr (e.apis.map (fun a => Val.obj a.to_dict))),
   ("state", Val.str e.state.value),
   ("artifacts", Val.obj e.artifacts.to_dict),
   ("published_context", Val.obj e.published_context.to_dict),
   ("cycle_releases", Val.obj e.cycle_releases.to_dict)] ++
  (if e.warnings.isEmpty then []
   else [("warnings", Val.arr (e.warnings.map (fun w => Val.obj w.to_dict)))])

/-- A per-API record inside a `releases-master.yaml` release entry; both
fields may be missing or null. -/
structure ReleaseApi where
  api_name : Option String
  api_version : Option String
deriving DecidableEq, Repr

/-- A release record from the `releases[]` array of `releases-master.yaml`,
restricted to the fields the code reads via `.get`. -/
structure Release where
  repository : Option String
  meta_release : Option String
  release_type : Option String
  release_tag : Option String
  release_date : Option String
  apis : List ReleaseApi
deriving DecidableEq, Repr

/-- The sort key used by `_find_earliest_by_type`:
`r.get("release_date", "")`, an absent date becoming the empty string. -/
def dateKey (r : Release) : String := pyStr r.release_date

/-- The comparator of the stable sort in `_find_earliest_by_type`: release
dates compared as strings. -/
def dateLe (a b : Release) : Bool := decide (dateKey a ≤ dateKey b)

/-- Embedding of `milestone_deriver._empty_milestone`. -/
def _empty_milestone (planned_apis : List String) : MilestoneRelease :=
  { release_tag := none, release_date := none,
    apis := planned_apis.map (fun n => { api_name := n, api_version := none }) }

/-- A Python dict keyed by API name, built by a left fold over the per-API
records of a release: only truthy names are inserted, a later record with
the same name overwriting an earlier one, the stored value given by `f`.
Both `_find_earliest_by_type` and `_check_published_plan_diverged` build
their lookup dicts this way. -/
def nameDict {β : Type} (f : ReleaseApi → β) (apis : List ReleaseApi) :
    String → Option β :=
  apis.foldl (fun d api =>
    match api.api_name with
    | some name =>
      if name = "" then d
      else fun k => if k = name then some (f api) else d k
    | none => d) (fun _ => none)

/-- The `release_api_versions` dict built by `_find_earliest_by_type`:
API name to the (possibly null) recorded version. -/
def apiVersionDict (apis : List ReleaseApi) : String → Option (Option String) :=
  nameDict (fun api => api.api_version) apis

/-- The tail of `_find_earliest_by_type` once the earliest release has
been selected: build the planned-API version map from the chosen
release. -/
def _milestone_of (earliest : Release) (planned_apis : List String) : MilestoneRelease :=
  { release_tag := earliest.release_tag
    release_date := earliest.release_date
    apis := planned_apis.map (fun name =>
      { api_name := name, api_version := (apiVersionDict earliest.apis name).join }) }

/-- Embedding of `milestone_deriver._find_earliest_by_type`: filter the
cycle releases by exact `release_type`, stably sort by `release_date`
(absent dates keyed `""`), and take the first; an empty candidate set
gives the unachieved milestone shape. -/
def _find_earliest_by_type (cycle_releases : List Release) (release_type : String)
    (planned_apis : List String) : MilestoneRelease :=
  let matching := cycle_releases.filter (fun r => r.release_type == some release_type)
  match matching.mergeSort dateLe with
  | [] => _empty_milestone planned_apis
  | earliest :: _ => _milestone_of earliest planned_apis

/-- Embedding of `milestone_deriver.derive_cycle_releases`.  A falsy
`meta_release` short-circuits to the all-absent `CycleReleases()`; an
empty cycle filter gives three unachieved milestones; otherwise each
milestone kind is selected by `_find_earliest_by_type`. -/
def derive_cycle_releases (repo_name : String) (meta_release : Option String)
    (all_releases : List Release) (planned_apis : List String) : CycleReleases :=
  if optTruthy meta_release = false then ⟨none, none, none⟩
  else if (all_releases.filter (fun r =>
      r.repository == some repo_name && r.meta_release == meta_release)).isEmpty then
    ⟨some (_empty_milestone planned_apis), some (_empty_milestone planned_apis),
     some (_empty_milestone planned_apis)⟩
  else
    ⟨some (_find_earliest_by_type (all_releases.filter (fun r =>
        r.repository == some repo_name && r.meta_release == meta_release))
        "pre-release-alpha" planned_apis),
     some (_find_earliest_by_type (all_releases.filter (fun r =>
        r.repository == some repo_name && r.meta_release == meta_release))
        "pre-release-rc" planned_apis),
     some (_find_earliest_by_type (all_releases.filter (fun r =>
        r.repository == some repo_name && r.meta_release == meta_release))
        "public-release" planned_apis)⟩

/-- The per-cycle counts dict of `build_meta_release_summaries`. -/
structure SummaryCounts where
  total_apis : Nat
  m1_achieved : Nat
  m3_achieved : Nat
  m4_achieved : Nat
deriving DecidableEq, Repr

/-- Componentwise addition of summary counts. -/
def addCounts (a b : SummaryCounts) : SummaryCounts :=
  ⟨a.total_apis + b.total_apis, a.m1_achieved + b.m1_achieved,
   a.m3_achieved + b.m3_achieved, a.m4_achieved + b.m4_achieved⟩

/-- The per-milestone achieved count added by `build_meta_release_summaries`:
the number of truthy API versions, counted only when the milestone is
present and its `release_tag` is truthy. -/
def _achieved_count (m : Option MilestoneRelease) : Nat :=
  match m with
  | none => 0
  | some mm =>
    if optTruthy mm.release_tag then
      (mm.apis.filter (fun a => optTruthy a.api_version)).length
    else 0

/-- What one entry adds to the counts of its cycle in
`build_meta_release_summaries`. -/
def _entry_counts (e : ProgressEntry) : SummaryCounts :=
  { total_apis := e.apis.length
    m1_achieved := _achieved_count e.cycle_releases.m1
    m3_achieved := _achieved_count e.cycle_releases.m3
    m4_achieved := _achieved_count e.cycle_releases.m4 }

/-- Upsert into the insertion-ordered summaries dict: the Python code
inserts a zero record for a new key and then adds the entry counts, which
nets to this add-or-append. -/
def _add_entry (summaries : List (String × SummaryCounts)) (mr : String)
    (c : SummaryCounts) : List (String × SummaryCounts) :=
  match summaries with
  | [] => [(mr, c)]
  | (k, s) :: rest =>
    if k = mr then (k, addCounts s c) :: rest else (k, s) :: _add_entry rest mr c

/-- One step of the `build_meta_release_summaries` loop: an entry with a
falsy `meta_release` is skipped, otherwise its counts are added to its
cycle. -/
def _summaries_step (summaries : List (String × SummaryCounts)) (entry : ProgressEntry) :
    List (String × SummaryCounts) :=
  match entry.meta_release with
  | none => summaries
  | some mr =>
    if mr = "" then summaries
    else _add_entry summaries mr (_entry_counts entry)

/-- Embedding of `milestone_deriver.build_meta_release_summaries`: a left
fold over the entries, skipping entries with a falsy `meta_release`, the
result an insertion-ordered dict of per-cycle counts. -/
def build_meta_release_summaries (progress_entries : List ProgressEntry) :
    List (String × SummaryCounts) :=
  progress_entries.foldl _summaries_step []

/-- Lookup in the summaries dict by cycle name. -/
def lookupCounts (summaries : List (String × SummaryCounts)) (k : String) :
    Option SummaryCounts :=
  match summaries with
  | [] => none
  | (k0, s) :: rest => if k0 = k then some s else lookupCounts rest k

/-- The base version used by the W001 check: the recorded version with any
hyphen-delimited suffix stripped, a falsy recorded version giving `""`.
Python takes `version.split("-")[0]`, the text before the first hyphen,
which is the longest hyphen-free prefix of the string. -/
def _base_version (version : Option String) : String :=
  if optTruthy version then String.mk ((pyStr version).data.takeWhile (fun c => c != '-'))
  else ""

/-- The `published_versions` dict of `_check_published_plan_diverged`:
name to stripped base version, truthy names only, a later record with the
same name overwriting an earlier one. -/
def _published_versions (apis : List ReleaseApi) : String → Option String :=
  nameDict (fun api => _base_version api.api_version) apis

/-- Embedding of `warnings._check_published_plan_diverged` (W001). -/
def _check_published_plan_diverged (entry : ProgressEntry) (repo_releases : List Release) :
    List ProgressWarning :=
  if entry.state ≠ ProgressState.PUBLISHED then []
  else if optTruthy entry.target_release_tag = false ∨ entry.apis.isEmpty then []
  else
    match repo_releases.find? (fun r => r.release_tag == entry.target_release_tag) with
    | none => []
    | some published =>
      match entry.apis.find? (fun api =>
          match _published_versions published.apis api.api_name with
          | some pb => pb != "" && api.target_api_version != pb
          | none => false) with
      | some api =>
        [{ code := "W001"
           message := "Plan targets " ++ api.api_name ++ " " ++ api.target_api_version ++
             " but " ++ pyStr entry.target_release_tag ++ " published " ++
             (_published_versions published.apis api.api_name).getD ""
           severity := "warning" }]
      | none => []

/-- Embedding of `warnings._check_orphaned_snapshot` (W002). -/
def _check_orphaned_snapshot (entry : ProgressEntry) (_repo_releases : List Release) :
    List ProgressWarning :=
  if entry.state ≠ ProgressState.NOT_PLANNED then []
  else if optTruthy entry.artifacts.snapshot_branch then
    [{ code := "W002"
       message := "Snapshot branch " ++ pyStr entry.artifacts.snapshot_branch ++
         " exists but release type is \x27none\x27"
       severity := "warning" }]
  else []

/-- Embedding of `warnings.generate_warnings`: the registered checks run
in registration order, outputs concatenated. -/
def generate_warnings (entry : ProgressEntry) (repo_releases : List Release) :
    List ProgressWarning :=
  _check_published_plan_diverged entry repo_releases ++
    _check_orphaned_snapshot entry repo_releases

/-! ### Specification-side definitions

These definitions follow the wording of the specification and of the
claims, to be compared with the embedded code.  `minFirst` is the direct
reading of "stably sort ascending by key and take the first": the first
element in input order among those with the minimal key. -/

/-- The first element in input order whose `dateKey` is minimal: a left
fold keeping the accumulator unless a strictly smaller key appears. -/
def minFirst (a : Release) (l : List Release) : Release :=
  l.foldl (fun acc r => if dateKey r < dateKey acc then r else acc) a

/-- Specification reading of the per-API version of a chosen milestone
release: the version recorded for that API name in the release, the last
record winning when a (non-empty) name repeats, null when the release has
no record with that name or the planned name is empty. -/
def specApiVersion (earliest : Release) (name : String) : Option String :=
  if name = "" then none
  else (earliest.apis.reverse.find? (fun a => a.api_name == some name)).bind
    (fun a => a.api_version)

/-- Specification reading of milestone selection: filter by exact release
type, take the first date-minimal candidate in input order, and map every
planned API to its version in that release. -/
def specMilestone (cycle_releases : List Release) (kind : String)
    (planned_apis : List String) : MilestoneRelease :=
  match cycle_releases.filter (fun r => r.release_type == some kind) with
  | [] => _empty_milestone planned_apis
  | m :: rest =>
    { release_tag := (minFirst m rest).release_tag
      release_date := (minFirst m rest).release_date
      apis := planned_apis.map (fun name =>
        { api_name := name, api_version := specApiVersion (minFirst m rest) name }) }

/-- Specification reading of the published base version used by the W001
check: the version recorded in the published release for that API name
(last record wins), with any hyphen-delimited suffix stripped. -/
def specPublishedBase (published : Release) (name : String) : Option String :=
  if name = "" then none
  else (published.apis.reverse.find? (fun a => a.api_name == some name)).map
    (fun a => _base_version a.api_version)

/-- The all-zero summary counts record. -/
def zeroCounts : SummaryCounts := ⟨0, 0, 0, 0⟩

/-- Specification reading of the per-cycle summary counts: direct sums
over the entries assigned to the cycle. -/
def sumContrib (k : String) (l : List ProgressEntry) : SummaryCounts :=
  ⟨((l.filter (fun e => e.meta_release == some k)).map (fun e => e.apis.length)).sum,
   ((l.filter (fun e => e.meta_release == some k)).map
      (fun e => _achieved_count e.cycle_releases.m1)).sum,
   ((l.filter (fun e => e.meta_release == some k)).map
      (fun e => _achieved_count e.cycle_releases.m3)).sum,
   ((l.filter (fun e => e.meta_release == some k)).map
      (fun e => _achieved_count e.cycle_releases.m4)).sum⟩

/-- Lookup of a key in a serialized dict (first occurrence). -/
def getVal : List (String × Val) → String → Option Val
  | [], _ => none
  | (k, v) :: rest, key => if k = key then some v else getVal rest key

/-! ### Concrete inputs used by counterexamples and witnesses -/

/-- A baseline progress entry with every optional field absent. -/
def baseEntry : ProgressEntry :=
  { repository := "Repo"
    github_url := "https://example.org/Repo"
    release_track := none
    meta_release := none
    target_release_tag := none
    target_release_type := none
    dependencies := none
    apis := []
    state := ProgressState.NOT_PLANNED
    artifacts := ⟨none, none, none, none⟩
    published_context := ⟨none, none⟩
    cycle_releases := ⟨none, none, none⟩
    warnings := [] }

/-- Entry for the W001 counterexample: published state, target tag `r1`,
one planned API `x` at `1.0.0`. -/
def entryC6 : ProgressEntry :=
  { baseEntry with
    state := ProgressState.PUBLISHED
    target_release_tag := some "r1"
    apis := [⟨"x", "1.0.0", "rc", []⟩] }

/-- Release for the W001 counterexample: the published release records
API `x` with an empty version string. -/
def releaseC6 : Release :=
  ⟨some "Repo", some "Sync26", some "public-release", some "r1", some "2026-01-01",
    [⟨some "x", some ""⟩]⟩

/-- Release list for the W001 counterexample. -/
def relsC6 : List Release := [releaseC6]

/-- Entry for the W001 witness: published, target tag `r1`, planned API
`x` at `2.0.0`. -/
def entryC6w : ProgressEntry :=
  { baseEntry with
    state := ProgressState.PUBLISHED
    target_release_tag := some "r1"
    apis := [⟨"x", "2.0.0", "rc", []⟩] }

/-- Published release for the W001 witness: API `x` at `1.1.0`. -/
def relC6w : Release :=
  ⟨some "Repo", some "Sync26", some "public-release", some "r1", some "2026-01-01",
    [⟨some "x", some "1.1.0"⟩]⟩

/-- Entry for the W001 suffix-stripping witness: planned API `x` at
`1.1.0`. -/
def entryC6rc : ProgressEntry :=
  { baseEntry with
    state := ProgressState.PUBLISHED
    target_release_tag := some "r1"
    apis := [⟨"x", "1.1.0", "rc", []⟩] }

/-- Published release for the suffix-stripping witness: API `x` at
`1.1.0-rc.2`, whose base version equals the plan. -/
def relC6rc : Release :=
  ⟨some "Repo", some "Sync26", some "public-release", some "r1", some "2026-01-01",
    [⟨some "x", some "1.1.0-rc.2"⟩]⟩

/-- Releases for the milestone-derivation witness: one alpha and one rc
release of repo `X` in cycle `Sync26`. -/
def relAlpha : Release :=
  ⟨some "X", some "Sync26", some "pre-release-alpha", some "r4.1", some "2026-02-10",
    [⟨some "x", some "1.0.0-alpha.1"⟩]⟩

/-- The rc release of the milestone-derivation witness. -/
def relRc : Release :=
  ⟨some "X", some "Sync26", some "pre-release-rc", some "r4.2", some "2026-03-15",
    [⟨some "x", some "1.1.0-rc.1"⟩]⟩

/-- Entry for the orphan-check witness: not planned, with a recorded
snapshot branch. -/
def entryC9w : ProgressEntry :=
  { baseEntry with artifacts := ⟨some "release-snapshot/r4.1-abc123", none, none, none⟩ }

/-- Entry for the summaries counterexample: an empty-string cycle id and
one planned API. -/
def entryC7 : ProgressEntry :=
  { baseEntry with meta_release := some "", apis := [⟨"x", "1.0.0", "rc", []⟩] }

/-- Entry for the orphan-check counterexample: not planned, with an
empty-string snapshot branch recorded. -/
def entryC9 : ProgressEntry :=
  { baseEntry with artifacts := ⟨some "", none, none, none⟩ }

/-- Entry for the summaries witness: cycle `Sync26`, one planned API,
one achieved M1 milestone. -/
def entryA : ProgressEntry :=
  { baseEntry with
    meta_release := some "Sync26"
    apis := [⟨"x", "1.0.0", "rc", []⟩]
    cycle_releases :=
      ⟨some ⟨some "r4.1", some "2026-02-10", [⟨"x", some "1.0.0"⟩]⟩, none, none⟩ }

/-- Second entry for the summaries witness: cycle `Sync26`, two planned
APIs, no milestones. -/
def entryB : ProgressEntry :=
  { baseEntry with
    meta_release := some "Sync26"
    apis := [⟨"y", "1.0.0", "rc", []⟩, ⟨"z", "2.0.0", "rc", []⟩] }

/-- A release with an empty-string date, tag `a`. -/
def relC10a : Release :=
  ⟨some "Repo", some "Sync26", some "public-release", some "a", some "", []⟩

/-- A release with a proper date, tag `c`, for the dateless-first
witness. -/
def relC10c : Release :=
  ⟨some "Repo", some "Sync26", some "public-release", some "c", some "2026-01-01", []⟩

/-- A dateless release, tag `b`. -/
def relC10b : Release :=
  ⟨some "Repo", some "Sync26", some "public-release", some "b", none, []⟩

/-! ### Lemmas: stable sort head and first-minimal selection -/

theorem dateLe_trans : ∀ (a b c : Release), dateLe a b → dateLe b c → dateLe a c := by
  intro a b c hab hbc
  simp only [dateLe, decide_eq_true_eq] at *
  exact le_trans hab hbc

theorem dateLe_total : ∀ (a b : Release), dateLe a b || dateLe b a := by
  intro a b
  rcases le_total (dateKey a) (dateKey b) with h | h <;> simp [dateLe, h]

theorem minFirst_nil (a : Release) : minFirst a [] = a := rfl

theorem minFirst_cons (a b : Release) (l : List Release) :
    minFirst a (b :: l) = minFirst (if dateKey b < dateKey a then b else a) l := rfl

theorem minFirst_of_not_lt (l : List Release) (a : Release)
    (h : ∀ b ∈ l, ¬ dateKey b < dateKey a) : minFirst a l = a := by
  induction l with
  | nil => rfl
  | cons b t ih =>
    rw [minFirst_cons, if_neg (h b (by simp))]
    exact ih fun x hx => h x (by simp [hx])

theorem minFirst_lt (l : List Release) : ∀ (a c : Release), minFirst a l = c →
    c = a ∨ dateKey c < dateKey a := by
  induction l with
  | nil => intro a c h; left; exact h.symm
  | cons r t ih =>
    intro a c h
    rw [minFirst_cons] at h
    by_cases hr : dateKey r < dateKey a
    · rw [if_pos hr] at h
      rcases ih r c h with h1 | h1
      · right; rw [h1]; exact hr
      · right; exact lt_trans h1 hr
    · rw [if_neg hr] at h
      exact ih a c h

theorem minFirst_switch (l : List Release) : ∀ (x y c : Release),
    minFirst x l = c → dateKey c < dateKey x → dateKey c < dateKey y →
    minFirst y l = c := by
  induction l with
  | nil =>
    intro x y c h hx _
    rw [minFirst_nil] at h
    subst h
    exact absurd hx (lt_irrefl _)
  | cons r t ih =>
    intro x y c h hx hy
    rw [minFirst_cons] at h ⊢
    by_cases hrx : dateKey r < dateKey x
    · rw [if_pos hrx] at h
      by_cases hry : dateKey r < dateKey y
      · rw [if_pos hry]; exact h
      · rw [if_neg hry]
        rcases minFirst_lt t r c h with h1 | h1
        · subst h1; exact absurd hy hry
        · exact ih r y c h h1 hy
    · rw [if_neg hrx] at h
      have hcr : dateKey c < dateKey r := lt_of_lt_of_le hx (not_lt.mp hrx)
      by_cases hry : dateKey r < dateKey y
      · rw [if_pos hry]
        exact ih x r c h hx hcr
      · rw [if_neg hry]
        exact ih x y c h hx hy

theorem head?_mergeSort_eq_minFirst (l : List Release) : ∀ (a : Release),
    (List.mergeSort (a :: l) dateLe).head? = some (minFirst a l) := by
  induction l with
  | nil => intro a; simp [minFirst_nil]
  | cons b t ih =>
    intro a
    obtain ⟨l₁, l₂, h1, h2, h3⟩ := List.mergeSort_cons dateLe_trans dateLe_total a (b :: t)
    cases l₁ with
    | nil =>
      simp only [List.nil_append] at h1 h2
      rw [h1]
      have hs := List.sorted_mergeSort dateLe_trans dateLe_total (a :: b :: t)
      rw [h1] at hs
      have hall : ∀ x ∈ b :: t, ¬ dateKey x < dateKey a := by
        intro x hx
        have hx2 : x ∈ l₂ := by
          rw [← h2]
          exact List.mem_mergeSort.mpr hx
        have := (List.pairwise_cons.mp hs).1 x hx2
        simp only [dateLe, decide_eq_true_eq] at this
        exact not_lt.mpr this
      rw [minFirst_of_not_lt _ _ hall]
      rfl
    | cons c t₁ =>
      rw [h1]
      have hc : minFirst b t = c := by
        have := ih b
        rw [h2] at this
        simpa using this.symm
      have hca : dateKey c < dateKey a := by
        have := h3 c (by simp)
        simp only [dateLe, Bool.not_eq_true', decide_eq_false_iff_not] at this
        exact not_le.mp this
      rw [minFirst_cons]
      by_cases hb : dateKey b < dateKey a
      · rw [if_pos hb, hc]
        rfl
      · rw [if_neg hb]
        rcases minFirst_lt t b c hc with h1' | h1'
        · exfalso
          apply hb
          rw [← h1']
          exact hca
        · rw [minFirst_switch t b a c hc h1' hca]
          rfl

/-! ### Lemmas: dict builds as last-match lookups -/

theorem nameDict_append {β : Type} (f : ReleaseApi → β) (xs : List ReleaseApi)
    (x : ReleaseApi) : nameDict f (xs ++ [x]) =
      (match x.api_name with
       | some name =>
         if name = "" then nameDict f xs
         else fun k => if k = name then some (f x) else nameDict f xs k
       | none => nameDict f xs) := by
  simp only [nameDict, List.foldl_append, List.foldl_cons, List.foldl_nil]

theorem nameDict_eq_find? {β : Type} (f : ReleaseApi → β) (apis : List ReleaseApi)
    (n : String) (hn : n ≠ "") :
    nameDict f apis n =
      (apis.reverse.find? (fun a => a.api_name == some n)).map f := by
  induction apis using List.reverseRecOn with
  | nil => rfl
  | append_singleton xs x ih =>
    rw [nameDict_append, List.reverse_append]
    simp only [List.reverse_cons, List.reverse_nil, List.nil_append, List.singleton_append,
      List.find?_cons]
    cases hx : x.api_name with
    | none =>
      simp only [hx]
      have : ((none : Option String) == some n) = false := by simp
      rw [this]
      exact ih
    | some name =>
      simp only [hx]
      by_cases hname : name = ""
      · subst hname
        rw [if_pos rfl]
        have : ((some "" : Option String) == some n) = false := by
          simp [Ne.symm hn]
        rw [this]
        exact ih
      · rw [if_neg hname]
        by_cases hkn : n = name
        · subst hkn
          simp
        · have h1 : ((some name : Option String) == some n) = false := by
            simp [Ne.symm hkn]
          rw [h1]
          simp only [if_neg hkn]
          exact ih

theorem nameDict_empty_key {β : Type} (f : ReleaseApi → β) (apis : List ReleaseApi) :
    nameDict f apis "" = none := by
  induction apis using List.reverseRecOn with
  | nil => rfl
  | append_singleton xs x ih =>
    rw [nameDict_append]
    cases hx : x.api_name with
    | none => exact ih
    | some name =>
      dsimp only
      by_cases hname : name = ""
      · rw [if_pos hname]; exact ih
      · rw [if_neg hname]
        simp only [if_neg (Ne.symm hname)]
        exact ih

theorem apiVersionDict_join (apis : List ReleaseApi) (earliest : Release)
    (h : apis = earliest.apis) (n : String) :
    (apiVersionDict apis n).join = specApiVersion earliest n := by
  subst h
  by_cases hn : n = ""
  · subst hn
    rw [specApiVersion, if_pos rfl, apiVersionDict, nameDict_empty_key]
    rfl
  · rw [specApiVersion, if_neg hn, apiVersionDict, nameDict_eq_find? _ _ _ hn]
    cases earliest.apis.reverse.find? (fun a => a.api_name == some n) with
    | none => rfl
    | some a => rfl

theorem published_versions_eq_spec (published : Release) :
    _published_versions published.apis = specPublishedBase published := by
  funext n
  by_cases hn : n = ""
  · subst hn
    rw [specPublishedBase, if_pos rfl, _published_versions, nameDict_empty_key]
  · rw [specPublishedBase, if_neg hn, _published_versions, nameDict_eq_find? _ _ _ hn]

/-! ### Lemmas: milestone selection equals its specification reading -/

theorem find_earliest_eq_spec (cycle_releases : List Release) (kind : String)
    (planned_apis : List String) :
    _find_earliest_by_type cycle_releases kind planned_apis =
      specMilestone cycle_releases kind planned_apis := by
  rw [_find_earliest_by_type, specMilestone]
  cases hm : cycle_releases.filter (fun r => r.release_type == some kind) with
  | nil => rw [List.mergeSort_nil]
  | cons m rest =>
    have hhead := head?_mergeSort_eq_minFirst rest m
    cases hs : List.mergeSort (m :: rest) dateLe with
    | nil => simp [hs] at hhead
    | cons earliest tail =>
      rw [hs] at hhead
      simp only [List.head?_cons, Option.some.injEq] at hhead
      subst hhead
      unfold _milestone_of
      dsimp only
      congr 1
      apply List.map_congr_left
      intro name _
      congr 1
      exact apiVersionDict_join _ _ rfl name

/-! ### Lemmas: the empty sort key is minimal -/

theorem empty_le_str (s : String) : "" ≤ s := by
  rw [String.le_iff_toList_le]
  exact List.nil_le

theorem not_lt_empty_str (s : String) : ¬ s < "" :=
  not_lt.mpr (empty_le_str s)

theorem find?_congr_pred {α : Type} (p q : α → Bool) :
    ∀ (l : List α), (∀ x ∈ l, p x = q x) → l.find? p = l.find? q := by
  intro l
  induction l with
  | nil => intro _; rfl
  | cons a t ih =>
    intro h
    rw [List.find?_cons, List.find?_cons, h a (by simp)]
    cases q a with
    | true => rfl
    | false => exact ih fun x hx => h x (by simp [hx])

theorem minFirst_of_find?_dateless : ∀ (l : List Release) (a e : Release),
    (a :: l).find? (fun r => decide (dateKey r = "")) = some e → minFirst a l = e := by
  intro l
  induction l with
  | nil =>
    intro a e h
    by_cases pa : dateKey a = ""
    · rw [List.find?_cons_of_pos _ (by simp [pa])] at h
      rw [minFirst_nil]
      exact Option.some.inj h
    · rw [List.find?_cons_of_neg _ (by simp [pa]), List.find?_nil] at h
      exact absurd h (by simp)
  | cons r t ih =>
    intro a e h
    by_cases pa : dateKey a = ""
    · rw [List.find?_cons_of_pos _ (by simp [pa])] at h
      have he : a = e := Option.some.inj h
      subst he
      exact minFirst_of_not_lt _ _ fun x _ => by
        rw [pa]; exact not_lt_empty_str (dateKey x)
    · rw [List.find?_cons_of_neg _ (by simp [pa])] at h
      rw [minFirst_cons]
      by_cases pr : dateKey r = ""
      · rw [List.find?_cons_of_pos _ (by simp [pr])] at h
        have he : r = e := Option.some.inj h
        subst he
        have hra : dateKey r < dateKey a := by
          rw [pr]
          exact lt_of_le_of_ne (empty_le_str _) (Ne.symm pa)
        rw [if_pos hra]
        exact minFirst_of_not_lt _ _ fun x _ => by
          rw [pr]; exact not_lt_empty_str (dateKey x)
      · rw [List.find?_cons_of_neg _ (by simp [pr])] at h
        by_cases hra : dateKey r < dateKey a
        · rw [if_pos hra]
          apply ih r e
          rw [List.find?_cons_of_neg _ (by simp [pr])]
          exact h
        · rw [if_neg hra]
          apply ih a e
          rw [List.find?_cons_of_neg _ (by simp [pa])]
          exact h

/-! ### Lemmas: summary counts -/

theorem addCounts_zero (s : SummaryCounts) : addCounts s zeroCounts = s := by
  simp [addCounts, zeroCounts]

theorem zero_addCounts (s : SummaryCounts) : addCounts zeroCounts s = s := by
  simp [addCounts, zeroCounts]

theorem addCounts_assoc (a b c : SummaryCounts) :
    addCounts (addCounts a b) c = addCounts a (addCounts b c) := by
  simp [addCounts, Nat.add_assoc]

theorem sumContrib_nil (k : String) : sumContrib k [] = zeroCounts := rfl

theorem sumContrib_cons_skip (k : String) (e : ProgressEntry) (l : List ProgressEntry)
    (h : (e.meta_release == some k) = false) :
    sumContrib k (e :: l) = sumContrib k l := by
  simp [sumContrib, List.filter_cons, h]

theorem sumContrib_cons_match (k : String) (e : ProgressEntry) (l : List ProgressEntry)
    (h : (e.meta_release == some k) = true) :
    sumContrib k (e :: l) = addCounts (_entry_counts e) (sumContrib k l) := by
  simp [sumContrib, List.filter_cons, h, _entry_counts, addCounts]

theorem lookupCounts_add_entry (acc : List (String × SummaryCounts)) (mr k : String)
    (c : SummaryCounts) :
    lookupCounts (_add_entry acc mr c) k =
      if k = mr then some (addCounts ((lookupCounts acc k).getD zeroCounts) c)
      else lookupCounts acc k := by
  induction acc with
  | nil =>
    by_cases hk : k = mr
    · subst hk
      simp [_add_entry, lookupCounts, zero_addCounts]
    · simp [_add_entry, lookupCounts, hk, Ne.symm hk]
  | cons p rest ih =>
    obtain ⟨k0, s⟩ := p
    by_cases h0 : k0 = mr
    · subst h0
      rw [_add_entry, if_pos rfl]
      by_cases hk : k = k0
      · subst hk
        simp [lookupCounts]
      · rw [lookupCounts, if_neg (fun hh => hk hh.symm), if_neg hk]
        rw [lookupCounts, if_neg (fun hh => hk hh.symm)]
    · rw [_add_entry, if_neg h0]
      by_cases hk0 : k0 = k
      · subst hk0
        have hkmr : ¬ k0 = mr := h0
        rw [lookupCounts, if_pos rfl, if_neg hkmr, lookupCounts, if_pos rfl]
      · rw [lookupCounts, if_neg hk0, ih]
        by_cases hk : k = mr
        · rw [if_pos hk, if_pos hk, lookupCounts, if_neg hk0]
        · rw [if_neg hk, if_neg hk, lookupCounts, if_neg hk0]

theorem lookupCounts_foldl (l : List ProgressEntry) :
    ∀ (acc : List (String × SummaryCounts)) (k : String), k ≠ "" →
    lookupCounts (l.foldl _summaries_step acc) k =
      if lookupCounts acc k = none ∧
          (l.filter (fun e => e.meta_release == some k)).isEmpty = true then none
      else some (addCounts ((lookupCounts acc k).getD zeroCounts) (sumContrib k l)) := by
  induction l with
  | nil =>
    intro acc k _
    cases h : lookupCounts acc k with
    | none => simp [h, sumContrib_nil]
    | some s => simp [h, sumContrib_nil, addCounts_zero]
  | cons e t ih =>
    intro acc k hk
    rw [List.foldl_cons]
    cases hmr : e.meta_release with
    | none =>
      have hstep : _summaries_step acc e = acc := by rw [_summaries_step, hmr]
      have hpred : (e.meta_release == some k) = false := by simp [hmr]
      rw [hstep, ih acc k hk, sumContrib_cons_skip k e t hpred]
      simp [List.filter_cons, hpred]
    | some mr =>
      by_cases hmr0 : mr = ""
      · subst hmr0
        have hstep : _summaries_step acc e = acc := by rw [_summaries_step, hmr]; simp
        have hpred : (e.meta_release == some k) = false := by
          simp [hmr]
          exact fun hh => hk hh.symm
        rw [hstep, ih acc k hk, sumContrib_cons_skip k e t hpred]
        simp [List.filter_cons, hpred]
      · have hstep : _summaries_step acc e = _add_entry acc mr (_entry_counts e) := by
          rw [_summaries_step, hmr]
          simp [hmr0]
        rw [hstep, ih _ k hk, lookupCounts_add_entry]
        by_cases hkmr : k = mr
        · subst hkmr
          have hpred : (e.meta_release == some k) = true := by simp [hmr]
          rw [if_pos rfl]
          have hcons : sumContrib k (e :: t) = addCounts (_entry_counts e) (sumContrib k t) :=
            sumContrib_cons_match k e t hpred
          rw [hcons]
          simp only [List.filter_cons, hpred, List.isEmpty_cons, false_and, and_false,
            if_false]
          cases hacc : lookupCounts acc k with
          | none =>
            simp [zero_addCounts, addCounts_assoc]
          | some s =>
            simp [addCounts_assoc]
        · rw [if_neg hkmr]
          have hpred : (e.meta_release == some k) = false := by
            simp [hmr]
            intro hh
            exact hkmr hh.symm
          rw [sumContrib_cons_skip k e t hpred]
          simp [List.filter_cons, hpred]

theorem lookupCounts_build (l : List ProgressEntry) (k : String) (hk : k ≠ "") :
    lookupCounts (build_meta_release_summaries l) k =
      if (l.filter (fun e => e.meta_release == some k)).isEmpty = true then none
      else some (sumContrib k l) := by
  rw [build_meta_release_summaries, lookupCounts_foldl l [] k hk]
  have h0 : lookupCounts [] k = none := rfl
  rw [h0]
  simp [zero_addCounts]

theorem lookupCounts_foldl_empty_key (l : List ProgressEntry) :
    ∀ (acc : List (String × SummaryCounts)), lookupCounts acc "" = none →
    lookupCounts (l.foldl _summaries_step acc) "" = none := by
  induction l with
  | nil => intro acc h; exact h
  | cons e t ih =>
    intro acc h
    rw [List.foldl_cons]
    apply ih
    cases hmr : e.meta_release with
    | none =>
      have hstep : _summaries_step acc e = acc := by rw [_summaries_step, hmr]
      rw [hstep]; exact h
    | some mr =>
      by_cases hmr0 : mr = ""
      · have hstep : _summaries_step acc e = acc := by
          rw [_summaries_step, hmr]; simp [hmr0]
        rw [hstep]; exact h
      · have hstep : _summaries_step acc e = _add_entry acc mr (_entry_counts e) := by
          rw [_summaries_step, hmr]; simp [hmr0]
        rw [hstep, lookupCounts_add_entry, if_neg (fun hh => hmr0 hh.symm)]
        exact h

theorem lookupCounts_build_empty_key (l : List ProgressEntry) :
    lookupCounts (build_meta_release_summaries l) "" = none :=
  lookupCounts_foldl_empty_key l [] rfl

theorem lookupCounts_build_perm (l l' : List ProgressEntry) (h : l.Perm l') (k : String) :
    lookupCounts (build_meta_release_summaries l) k =
      lookupCounts (build_meta_release_summaries l') k := by
  by_cases hk : k = ""
  · subst hk
    rw [lookupCounts_build_empty_key, lookupCounts_build_empty_key]
  · rw [lookupCounts_build l k hk, lookupCounts_build l' k hk]
    have hf : (l.filter (fun e => e.meta_release == some k)).Perm
        (l'.filter (fun e => e.meta_release == some k)) := h.filter _
    have hlen : (l.filter (fun e => e.meta_release == some k)).length =
        (l'.filter (fun e => e.meta_release == some k)).length := hf.length_eq
    have hE : (l.filter (fun e => e.meta_release == some k)).isEmpty =
        (l'.filter (fun e => e.meta_release == some k)).isEmpty := by
      cases h1 : l.filter (fun e => e.meta_release == some k) with
      | nil =>
        cases h2 : l'.filter (fun e => e.meta_release == some k) with
        | nil => rfl
        | cons y ys => rw [h1, h2] at hlen; simp at hlen
      | cons x xs =>
        cases h2 : l'.filter (fun e => e.meta_release == some k) with
        | nil => rw [h1, h2] at hlen; simp at hlen
        | cons y ys => rfl
    have hS : sumContrib k l = sumContrib k l' := by
      rw [sumContrib, sumContrib]
      rw [(hf.map (fun e => e.apis.length)).sum_eq,
        (hf.map (fun e => _achieved_count e.cycle_releases.m1)).sum_eq,
        (hf.map (fun e => _achieved_count e.cycle_releases.m3)).sum_eq,
        (hf.map (fun e => _achieved_count e.cycle_releases.m4)).sum_eq]
    rw [hE, hS]

/-! ### Lemmas: strings -/

theorem substrB_parts (pre mid post : String) :
    substrB mid (pre ++ mid ++ post) = true := by
  simp only [substrB, decide_eq_true_eq]
  exact ⟨pre.data, post.data, by simp [String.data_append]⟩

theorem startswithB_eq_append (p b : String) (h : startswithB p b = true) :
    ∃ suffix : String, b = p ++ suffix := by
  rw [startswithB, List.isPrefixOf_iff_prefix] at h
  obtain ⟨rest, hrest⟩ := h
  refine ⟨String.mk rest, ?_⟩
  apply String.ext
  rw [String.data_append]
  exact hrest.symm

/-! ### Lemmas: snapshot matcher inversion -/

theorem find_matching_snapshot_eq_some (sb : List String) (tt : Option String) (b : String)
    (h : find_matching_snapshot sb tt = some b) :
    ∃ t, tt = some t ∧ t ≠ "" ∧
      sb.find? (fun br => startswithB ("release-snapshot/" ++ t ++ "-") br) = some b ∧
      b ≠ "" := by
  match tt with
  | none => simp [find_matching_snapshot] at h
  | some t =>
    rw [find_matching_snapshot] at h
    by_cases ht : t = ""
    · rw [if_pos ht] at h
      exact absurd h (by simp)
    · rw [if_neg ht] at h
      refine ⟨t, rfl, ht, h, ?_⟩
      have hp := List.find?_some h
      obtain ⟨suffix, hsuf⟩ := startswithB_eq_append _ _ hp
      intro hb
      rw [hb] at hsuf
      have hd : ("" : String).data = (("release-snapshot/" ++ t ++ "-") ++ suffix).data :=
        congrArg String.data hsuf
      rw [String.data_append, String.data_append, String.data_append] at hd
      simp only [List.append_assoc] at hd
      have h1 := List.append_eq_nil.mp hd.symm
      exact absurd h1.1 (by decide)

theorem has_matching_draft_eq (dr : List DraftRelease) (t : String) (ht : t ≠ "") :
    _has_matching_draft dr (some t) =
      dr.any (fun d => substrB t (pyStr d.name) || substrB t (pyStr d.tag_name)) := by
  rw [_has_matching_draft]
  by_cases hdr : dr.isEmpty
  · have hnil : dr = [] := List.isEmpty_iff.mp hdr
    subst hnil
    simp [ht]
  · rw [if_neg ?_]
    intro hcase
    rcases hcase with hcase | hcase
    · exact ht hcase
    · exact hdr hcase

/-! ### Claim C1 -/

/-- C1 (amended): in `derive_state` a null, absent, empty-string or
`"none"` release type always yields `NOT_PLANNED` regardless of the tag,
snapshot branches or draft releases, and any other release type with a
true `tag_exists` always yields `PUBLISHED` regardless of snapshot
branches or draft releases. -/
theorem C1_derive_state_priority (rt tt : Option String) (te : Bool)
    (sb : List String) (dr : List DraftRelease) :
    ((rt = none ∨ rt = some "" ∨ rt = some "none") →
      derive_state rt tt te sb dr = ProgressState.NOT_PLANNED)
  ∧ (rt ≠ none → rt ≠ some "" → rt ≠ some "none" → te = true →
      derive_state rt tt te sb dr = ProgressState.PUBLISHED) := by
  constructor
  · intro h
    rcases h with h | h | h <;> subst h <;> simp [derive_state, optTruthy]
  · intro h1 h2 h3 hte
    subst hte
    match rt, h1 with
    | some s, _ =>
      have hs : s ≠ "" := fun hh => h2 (by rw [hh])
      have hn : s ≠ "none" := fun hh => h3 (by rw [hh])
      simp [derive_state, optTruthy, hs, hn]

/-- C1 counterexample: the claim as stated excludes only null/absent and
`"none"` from the published branch, but an empty-string release type with
an existing tag yields `NOT_PLANNED`, not `PUBLISHED`. -/
theorem C1_counterexample :
    ¬ (∀ (rt tt : Option String) (sb : List String) (dr : List DraftRelease),
        ¬ (rt = none ∨ rt = some "none") →
        derive_state rt tt true sb dr = ProgressState.PUBLISHED) := by
  intro h
  have h2 := h (some "") (some "r1") [] [] (by simp)
  have h3 : derive_state (some "") (some "r1") true [] [] = ProgressState.NOT_PLANNED := by
    decide
  rw [h3] at h2
  exact ProgressState.noConfusion h2

/-- C1 witness: concrete instances of both branches of the theorem. -/
theorem C1_witness :
    derive_state (some "none") (some "r1") true ["release-snapshot/r1-x"] [] =
      ProgressState.NOT_PLANNED ∧
    derive_state (some "public-release") (some "r1") true ["release-snapshot/r1-x"] [] =
      ProgressState.PUBLISHED :=
  ⟨(C1_derive_state_priority (some "none") (some "r1") true ["release-snapshot/r1-x"] []).1
      (Or.inr (Or.inr rfl)),
   (C1_derive_state_priority (some "public-release") (some "r1") true
      ["release-snapshot/r1-x"] []).2 (by decide) (by decide) (by decide) rfl⟩

/-! ### Claim C2 -/

/-- C2 (amended): with a non-null, non-empty, non-`"none"` release type
and `tag_exists = false`, a matching snapshot branch yields `DRAFT_READY`
exactly when some draft release has its `name` or `tag_name` containing
the target tag as a substring and `SNAPSHOT_ACTIVE` otherwise, and no
matching snapshot yields `PLANNED`. -/
theorem C2_derive_state_snapshot (rt tt : Option String) (sb : List String)
    (dr : List DraftRelease) (b : String)
    (h1 : rt ≠ none) (h2 : rt ≠ some "") (h3 : rt ≠ some "none") :
    (find_matching_snapshot sb tt = some b →
      derive_state rt tt false sb dr =
        (if dr.any (fun d => substrB (pyStr tt) (pyStr d.name) ||
            substrB (pyStr tt) (pyStr d.tag_name))
         then ProgressState.DRAFT_READY else ProgressState.SNAPSHOT_ACTIVE))
  ∧ (find_matching_snapshot sb tt = none →
      derive_state rt tt false sb dr = ProgressState.PLANNED) := by
  obtain ⟨s, hrt⟩ : ∃ s, rt = some s := by
    cases rt with
    | none => exact absurd rfl h1
    | some s => exact ⟨s, rfl⟩
  have hs : s ≠ "" := fun hh => h2 (by rw [hrt, hh])
  have hn : s ≠ "none" := fun hh => h3 (by rw [hrt, hh])
  subst hrt
  constructor
  · intro hsnap
    obtain ⟨t, htt, ht, _, hbne⟩ := find_matching_snapshot_eq_some sb tt b hsnap
    subst htt
    rw [derive_state, if_neg (by simp [optTruthy, hs, hn]), if_neg (by simp), hsnap]
    dsimp only
    rw [if_neg hbne, has_matching_draft_eq dr t ht]
    rfl
  · intro hnone
    rw [derive_state, if_neg (by simp [optTruthy, hs, hn]), if_neg (by simp), hnone]

/-- C2 counterexample: an empty-string release type is not `"none"`, yet
with a matching snapshot branch and no existing tag the code returns
`NOT_PLANNED` instead of the snapshot-driven state. -/
theorem C2_counterexample :
    ¬ (∀ (rt tt : Option String) (sb : List String) (dr : List DraftRelease) (b : String),
        rt ≠ some "none" → find_matching_snapshot sb tt = some b →
        derive_state rt tt false sb dr =
          (if dr.any (fun d => substrB (pyStr tt) (pyStr d.name) ||
              substrB (pyStr tt) (pyStr d.tag_name))
           then ProgressState.DRAFT_READY else ProgressState.SNAPSHOT_ACTIVE)) := by
  intro h
  have h2 := h (some "") (some "r4") ["release-snapshot/r4-a"] [] "release-snapshot/r4-a"
    (by simp) (by decide)
  have h3 : derive_state (some "") (some "r4") false ["release-snapshot/r4-a"] [] =
      ProgressState.NOT_PLANNED := by decide
  rw [h3] at h2
  have h4 : (if ([] : List DraftRelease).any (fun d => substrB (pyStr (some "r4")) (pyStr d.name) ||
      substrB (pyStr (some "r4")) (pyStr d.tag_name))
      then ProgressState.DRAFT_READY else ProgressState.SNAPSHOT_ACTIVE) =
      ProgressState.SNAPSHOT_ACTIVE := by decide
  rw [h4] at h2
  exact ProgressState.noConfusion h2

/-- C2 witness: the end-to-end scenario of the specification, plus the
planned branch. -/
theorem C2_witness :
    derive_state (some "pre-release-rc") (some "r4.1") false ["release-snapshot/r4.1-abc123"]
      [⟨some "r4.1 pre-release-rc", some "r4.1"⟩] = ProgressState.DRAFT_READY ∧
    derive_state (some "pre-release-rc") (some "r4.1") false [] [] = ProgressState.PLANNED := by
  constructor
  · have h := (C2_derive_state_snapshot (some "pre-release-rc") (some "r4.1")
      ["release-snapshot/r4.1-abc123"] [⟨some "r4.1 pre-release-rc", some "r4.1"⟩]
      "release-snapshot/r4.1-abc123" (by decide) (by decide) (by decide)).1 (by decide)
    rw [h]
    decide
  · exact (C2_derive_state_snapshot (some "pre-release-rc") (some "r4.1") [] [] "x"
      (by decide) (by decide) (by decide)).2 (by decide)

/-! ### Claim C3 -/

/-- C3 (amended): `find_matching_snapshot` returns null when the target
tag is null, absent or empty; for a non-empty tag a returned branch
always carries the literal prefix `release-snapshot/{target_tag}-` (the
hyphen boundary, so a tag that is a string prefix of a longer tag never
matches), is the first such branch in input order, and null is returned
exactly when no branch carries the prefix. -/
theorem C3_find_matching_snapshot (branches : List String) (tt : Option String) :
    ((tt = none ∨ tt = some "") → find_matching_snapshot branches tt = none)
  ∧ (∀ t, tt = some t → t ≠ "" →
      ((∀ b, find_matching_snapshot branches tt = some b →
          (∃ suffix, b = "release-snapshot/" ++ t ++ "-" ++ suffix) ∧
          ∃ pre post, branches = pre ++ b :: post ∧
            ∀ x ∈ pre, startswithB ("release-snapshot/" ++ t ++ "-") x = false)
       ∧ (find_matching_snapshot branches tt = none →
          ∀ x ∈ branches, startswithB ("release-snapshot/" ++ t ++ "-") x = false))) := by
  constructor
  · intro h
    rcases h with h | h <;> subst h <;> simp [find_matching_snapshot]
  · intro t htt ht
    subst htt
    constructor
    · intro b hb
      rw [find_matching_snapshot, if_neg ht] at hb
      constructor
      · exact startswithB_eq_append _ _ (List.find?_some hb)
      · obtain ⟨hpb, as, bs, hsplit, hneg⟩ := List.find?_eq_some.mp hb
        refine ⟨as, bs, hsplit, ?_⟩
        intro x hx
        have := hneg x hx
        simpa using this
    · intro hn x hx
      rw [find_matching_snapshot, if_neg ht] at hn
      have := List.find?_eq_none.mp hn x hx
      simpa using this

/-- C3 counterexample: for an empty-string target tag the claim as stated
still promises the first branch carrying the prefix built from the empty
tag, but the code returns null without scanning. -/
theorem C3_counterexample :
    ¬ (∀ (branches : List String) (t : String),
        (∃ x ∈ branches, startswithB ("release-snapshot/" ++ t ++ "-") x = true) →
        ∃ b, find_matching_snapshot branches (some t) = some b) := by
  intro h
  obtain ⟨b, hb⟩ := h ["release-snapshot/-a"] "" ⟨"release-snapshot/-a", by decide, by decide⟩
  have h0 : find_matching_snapshot ["release-snapshot/-a"] (some "") = none := rfl
  rw [h0] at hb
  exact Option.noConfusion hb

/-- C3 witness: the partial-tag collision case, the first-match case and
the null cases of the theorem at concrete inputs. -/
theorem C3_witness :
    find_matching_snapshot ["release-snapshot/r4.2-xyz", "release-snapshot/r4-a"] (some "r4") =
      some "release-snapshot/r4-a" ∧
    (∃ suffix, "release-snapshot/r4-a" = "release-snapshot/" ++ "r4" ++ "-" ++ suffix) ∧
    find_matching_snapshot ["release-snapshot/r4.2-xyz"] (some "r4") = none ∧
    find_matching_snapshot ["release-snapshot/r4-a"] none = none := by
  refine ⟨by decide, ?_, by decide, ?_⟩
  · exact (((C3_find_matching_snapshot ["release-snapshot/r4.2-xyz", "release-snapshot/r4-a"]
      (some "r4")).2 "r4" rfl (by decide)).1 "release-snapshot/r4-a" (by decide)).1
  · exact (C3_find_matching_snapshot ["release-snapshot/r4-a"] none).1 (Or.inl rfl)

/-! ### Claim C4 -/

/-- C4 (amended): for a non-null, non-empty cycle id, when no release
matches both the repository and the cycle all three milestones are
present in the unachieved shape; in general every milestone equals its
specification reading: candidates filtered by exact release type, the
first date-minimal candidate in input order chosen (absent dates keyed
`""`), and one entry per planned API holding the version recorded under
that non-empty name in the chosen release (last record wins) or null. -/
theorem C4_derive_cycle_releases (repo mr : String) (all_releases : List Release)
    (planned : List String) (hmr : mr ≠ "") :
    (derive_cycle_releases repo (some mr) all_releases planned =
      { m1 := some (specMilestone (all_releases.filter (fun r =>
          r.repository == some repo && r.meta_release == some mr)) "pre-release-alpha" planned)
        m3 := some (specMilestone (all_releases.filter (fun r =>
          r.repository == some repo && r.meta_release == some mr)) "pre-release-rc" planned)
        m4 := some (specMilestone (all_releases.filter (fun r =>
          r.repository == some repo && r.meta_release == some mr)) "public-release" planned) })
  ∧ ((all_releases.filter (fun r =>
        r.repository == some repo && r.meta_release == some mr)) = [] →
      derive_cycle_releases repo (some mr) all_releases planned =
        ⟨some (_empty_milestone planned), some (_empty_milestone planned),
         some (_empty_milestone planned)⟩) := by
  have hopt : ¬ (optTruthy (some mr) = false) := by simp [optTruthy, hmr]
  constructor
  · rw [derive_cycle_releases, if_neg hopt]
    by_cases hf : (all_releases.filter (fun r =>
        r.repository == some repo && r.meta_release == some mr)).isEmpty
    · rw [if_pos hf]
      have hnil : (all_releases.filter (fun r =>
          r.repository == some repo && r.meta_release == some mr)) = [] :=
        List.isEmpty_iff.mp hf
      rw [hnil]
      rfl
    · rw [if_neg hf, find_earliest_eq_spec, find_earliest_eq_spec, find_earliest_eq_spec]
  · intro hnil
    rw [derive_cycle_releases, if_neg hopt, hnil]
    simp

/-- C4 counterexample: for the empty-string cycle id (non-null) and an
empty release list the claim as stated promises three present unachieved
milestones, but the code returns the all-absent record. -/
theorem C4_counterexample :
    ¬ (∀ (repo mr : String) (all_releases : List Release) (planned : List String),
        (all_releases.filter (fun r =>
          r.repository == some repo && r.meta_release == some mr)) = [] →
        derive_cycle_releases repo (some mr) all_releases planned =
          ⟨some (_empty_milestone planned), some (_empty_milestone planned),
           some (_empty_milestone planned)⟩) := by
  intro h
  have h2 := h "X" "" [] [] rfl
  have h3 : derive_cycle_releases "X" (some "") [] [] = ⟨none, none, none⟩ := by decide
  rw [h3] at h2
  exact absurd (congrArg CycleReleases.m1 h2) (by decide)

/-- C4 witness: the end-to-end milestone scenario of the specification,
evaluated through the theorem. -/
theorem C4_witness :
    derive_cycle_releases "X" (some "Sync26") [relAlpha, relRc] ["x"] =
      { m1 := some { release_tag := some "r4.1", release_date := some "2026-02-10",
                     apis := [⟨"x", some "1.0.0-alpha.1"⟩] }
        m3 := some { release_tag := some "r4.2", release_date := some "2026-03-15",
                     apis := [⟨"x", some "1.1.0-rc.1"⟩] }
        m4 := some (_empty_milestone ["x"]) } ∧
    derive_cycle_releases "X" (some "Sync26") [] ["x"] =
      ⟨some (_empty_milestone ["x"]), some (_empty_milestone ["x"]),
       some (_empty_milestone ["x"])⟩ := by
  constructor
  · rw [(C4_derive_cycle_releases "X" "Sync26" [relAlpha, relRc] ["x"] (by decide)).1]
    decide
  · exact (C4_derive_cycle_releases "X" "Sync26" [] ["x"] (by decide)).2 rfl

/-! ### Lemmas: serialized dict lookups -/

theorem getVal_append (l1 l2 : List (String × Val)) (k : String) :
    getVal (l1 ++ l2) k = match getVal l1 k with
      | some v => some v
      | none => getVal l2 k := by
  induction l1 with
  | nil => rfl
  | cons p rest ih =>
    obtain ⟨k0, v⟩ := p
    by_cases h : k0 = k
    · simp [getVal, h]
    · simp [getVal, h, ih]

theorem getVal_ite (c : Prop) [Decidable c] (l1 l2 : List (String × Val)) (k : String) :
    getVal (if c then l1 else l2) k = if c then getVal l1 k else getVal l2 k := by
  split_ifs <;> rfl

theorem getVal_entry_repository (e : ProgressEntry) :
    getVal e.to_dict "repository" = some (Val.str e.repository) := by
  rcases hd : e.dependencies with _ | v <;>
    simp [ProgressEntry.to_dict, getVal_append, getVal_ite, getVal, hd]

theorem getVal_entry_release_track (e : ProgressEntry) :
    getVal e.to_dict "release_track" =
      (if optTruthy e.release_track then some (Val.str (pyStr e.release_track)) else none) := by
  rcases hd : e.dependencies with _ | v <;>
    cases hrt : optTruthy e.release_track <;>
    simp [ProgressEntry.to_dict, getVal_append, getVal_ite, getVal, hd, hrt]

theorem getVal_entry_meta_release (e : ProgressEntry) :
    getVal e.to_dict "meta_release" =
      (if optTruthy e.meta_release then some (Val.str (pyStr e.meta_release)) else none) := by
  rcases hd : e.dependencies with _ | v <;>
    cases hmr : optTruthy e.meta_release <;>
    simp [ProgressEntry.to_dict, getVal_append, getVal_ite, getVal, hd, hmr]

theorem getVal_entry_target_release_tag (e : ProgressEntry) :
    getVal e.to_dict "target_release_tag" = some (optStr e.target_release_tag) := by
  rcases hd : e.dependencies with _ | v <;>
    simp [ProgressEntry.to_dict, getVal_append, getVal_ite, getVal, hd]

theorem getVal_entry_target_release_type (e : ProgressEntry) :
    getVal e.to_dict "target_release_type" = some (optStr e.target_release_type) := by
  rcases hd : e.dependencies with _ | v <;>
    simp [ProgressEntry.to_dict, getVal_append, getVal_ite, getVal, hd]

theorem getVal_entry_dependencies (e : ProgressEntry) :
    getVal e.to_dict "dependencies" =
      e.dependencies.bind (fun v => if v.truthy then some v else none) := by
  rcases hd : e.dependencies with _ | v
  · simp [ProgressEntry.to_dict, getVal_append, getVal_ite, getVal, hd]
  · cases hv : v.truthy <;>
      simp [ProgressEntry.to_dict, getVal_append, getVal_ite, getVal, hd, hv]

theorem getVal_entry_apis (e : ProgressEntry) :
    getVal e.to_dict "apis" =
      some (Val.arr (e.apis.map (fun a => Val.obj a.to_dict))) := by
  rcases hd : e.dependencies with _ | v <;>
    simp [ProgressEntry.to_dict, getVal_append, getVal_ite, getVal, hd]

theorem getVal_entry_state (e : ProgressEntry) :
    getVal e.to_dict "state" = some (Val.str e.state.value) := by
  rcases hd : e.dependencies with _ | v <;>
    simp [ProgressEntry.to_dict, getVal_append, getVal_ite, getVal, hd]

theorem getVal_entry_artifacts (e : ProgressEntry) :
    getVal e.to_dict "artifacts" = some (Val.obj e.artifacts.to_dict) := by
  rcases hd : e.dependencies with _ | v <;>
    simp [ProgressEntry.to_dict, getVal_append, getVal_ite, getVal, hd]

theorem getVal_entry_published_context (e : ProgressEntry) :
    getVal e.to_dict "published_context" = some (Val.obj e.published_context.to_dict) := by
  rcases hd : e.dependencies with _ | v <;>
    simp [ProgressEntry.to_dict, getVal_append, getVal_ite, getVal, hd]

theorem getVal_entry_cycle_releases (e : ProgressEntry) :
    getVal e.to_dict "cycle_releases" = some (Val.obj e.cycle_releases.to_dict) := by
  rcases hd : e.dependencies with _ | v <;>
    simp [ProgressEntry.to_dict, getVal_append, getVal_ite, getVal, hd]

theorem getVal_entry_warnings (e : ProgressEntry) :
    getVal e.to_dict "warnings" =
      (if e.warnings.isEmpty then none
       else some (Val.arr (e.warnings.map (fun w => Val.obj w.to_dict)))) := by
  rcases hd : e.dependencies with _ | v <;>
    cases hw : e.warnings.isEmpty <;>
    simp [ProgressEntry.to_dict, getVal_append, getVal_ite, getVal, hd, hw]

/-! ### Claim C5 -/

/-- C5 (amended): an entry with a null cycle id contributes nothing to
any meta-release summary; its derived `CycleReleases` has all three
milestones absent and serializes to an empty dict; but the serialized
entry still carries the always-present `cycle_releases` key mapped to
that empty dict, rather than omitting the key. -/
theorem C5_independent_repo (e : ProgressEntry) (l1 l2 : List ProgressEntry)
    (repo : String) (rels : List Release) (planned : List String)
    (h : e.meta_release = none) :
    build_meta_release_summaries (l1 ++ e :: l2) = build_meta_release_summaries (l1 ++ l2)
  ∧ derive_cycle_releases repo none rels planned = ⟨none, none, none⟩
  ∧ CycleReleases.to_dict ⟨none, none, none⟩ = []
  ∧ (e.cycle_releases = ⟨none, none, none⟩ →
      getVal e.to_dict "cycle_releases" = some (Val.obj [])) := by
  refine ⟨?_, rfl, rfl, ?_⟩
  · rw [build_meta_release_summaries, build_meta_release_summaries,
      List.foldl_append, List.foldl_append, List.foldl_cons]
    have hstep : _summaries_step (l1.foldl _summaries_step []) e =
        l1.foldl _summaries_step [] := by
      rw [_summaries_step, h]
    rw [hstep]
  · intro hcr
    rw [getVal_entry_cycle_releases, hcr]
    rfl

/-- C5 counterexample: the serialized form of an entry with a null cycle
id still contains the `cycle_releases` key (mapped to an empty dict),
contradicting the claimed total absence from the serialized form. -/
theorem C5_counterexample :
    baseEntry.meta_release = none ∧
    getVal baseEntry.to_dict "cycle_releases" = some (Val.obj []) := by
  refine ⟨rfl, ?_⟩
  rw [getVal_entry_cycle_releases]
  rfl

/-- C5 witness: the theorem applied to the baseline independent entry. -/
theorem C5_witness :
    build_meta_release_summaries [baseEntry] = build_meta_release_summaries [] ∧
    derive_cycle_releases "Repo" none [] [] = ⟨none, none, none⟩ ∧
    CycleReleases.to_dict ⟨none, none, none⟩ = [] ∧
    getVal baseEntry.to_dict "cycle_releases" = some (Val.obj []) := by
  have h := C5_independent_repo baseEntry [] [] "Repo" [] [] rfl
  exact ⟨h.1, h.2.1, h.2.2.1, h.2.2.2 rfl⟩

/-! ### Claim C8 -/

/-- C8 (amended): in the serialized entry the nullable fields
`target_release_tag` and `target_release_type` are always present with
explicit nulls and the `warnings` key is present exactly when the list is
non-empty; but `release_track`, `meta_release` and `dependencies` are
omitted whenever falsy instead of being serialized as explicit nulls, so
the omitted-empty-warnings rule is not the single exception. -/
theorem C8_to_dict_fields (e : ProgressEntry) :
    getVal e.to_dict "repository" = some (Val.str e.repository)
  ∧ getVal e.to_dict "target_release_tag" = some (optStr e.target_release_tag)
  ∧ getVal e.to_dict "target_release_type" = some (optStr e.target_release_type)
  ∧ getVal e.to_dict "warnings" =
      (if e.warnings.isEmpty then none
       else some (Val.arr (e.warnings.map (fun w => Val.obj w.to_dict))))
  ∧ getVal e.to_dict "release_track" =
      (if optTruthy e.release_track then some (Val.str (pyStr e.release_track)) else none)
  ∧ getVal e.to_dict "meta_release" =
      (if optTruthy e.meta_release then some (Val.str (pyStr e.meta_release)) else none)
  ∧ getVal e.to_dict "dependencies" =
      e.dependencies.bind (fun v => if v.truthy then some v else none)
  ∧ getVal e.to_dict "apis" = some (Val.arr (e.apis.map (fun a => Val.obj a.to_dict)))
  ∧ getVal e.to_dict "state" = some (Val.str e.state.value)
  ∧ getVal e.to_dict "artifacts" = some (Val.obj e.artifacts.to_dict)
  ∧ getVal e.to_dict "published_context" = some (Val.obj e.published_context.to_dict)
  ∧ getVal e.to_dict "cycle_releases" = some (Val.obj e.cycle_releases.to_dict) :=
  ⟨getVal_entry_repository e, getVal_entry_target_release_tag e,
   getVal_entry_target_release_type e, getVal_entry_warnings e,
   getVal_entry_release_track e, getVal_entry_meta_release e,
   getVal_entry_dependencies e, getVal_entry_apis e, getVal_entry_state e,
   getVal_entry_artifacts e, getVal_entry_published_context e,
   getVal_entry_cycle_releases e⟩

/-- C8 counterexample: `release_track` is a nullable field and the
baseline entry has it null, yet the key is absent from the serialized
form although the warnings list is not the field in question. -/
theorem C8_counterexample :
    baseEntry.release_track = none ∧
    getVal baseEntry.to_dict "release_track" = none := by
  refine ⟨rfl, ?_⟩
  rw [getVal_entry_release_track]
  rfl

/-! ### Claim C6 -/

/-- C6 (amended): the W001 check emits a warning only when the state is
published, the target tag is non-null and non-empty, at least one API is
planned, and some release carries the target tag; it emits at most one
warning; and under those guards its output is exactly determined by the
first planned API in list order whose published base version (the
suffix-stripped version of the last record with that name in the matching
release) is non-empty and differs from the declared target version, a
plan version equal to the stripped base producing nothing. -/
theorem C6_w001 (entry : ProgressEntry) (rels : List Release) :
    (_check_published_plan_diverged entry rels ≠ [] →
      entry.state = ProgressState.PUBLISHED ∧ optTruthy entry.target_release_tag = true ∧
      entry.apis ≠ [] ∧ ∃ r ∈ rels, r.release_tag = entry.target_release_tag)
  ∧ (_check_published_plan_diverged entry rels).length ≤ 1
  ∧ (∀ published, entry.state = ProgressState.PUBLISHED →
      optTruthy entry.target_release_tag = true → entry.apis ≠ [] →
      rels.find? (fun r => r.release_tag == entry.target_release_tag) = some published →
      _check_published_plan_diverged entry rels =
        match entry.apis.find? (fun api =>
            match specPublishedBase published api.api_name with
            | some pb => pb != "" && api.target_api_version != pb
            | none => false) with
        | some api =>
          [⟨"W001", "Plan targets " ++ api.api_name ++ " " ++ api.target_api_version ++
              " but " ++ pyStr entry.target_release_tag ++ " published " ++
              (specPublishedBase published api.api_name).getD "", "warning"⟩]
        | none => []) := by
  refine ⟨?_, ?_, ?_⟩
  · intro hne
    rw [_check_published_plan_diverged] at hne
    by_cases hst : entry.state ≠ ProgressState.PUBLISHED
    · rw [if_pos hst] at hne
      exact absurd rfl hne
    · rw [if_neg hst] at hne
      push_neg at hst
      by_cases hg : optTruthy entry.target_release_tag = false ∨ entry.apis.isEmpty
      · rw [if_pos hg] at hne
        exact absurd rfl hne
      · rw [if_neg hg] at hne
        push_neg at hg
        refine ⟨hst, ?_, ?_, ?_⟩
        · cases hopt : optTruthy entry.target_release_tag with
          | false => exact absurd hopt hg.1
          | true => rfl
        · intro hnil
          apply hg.2
          rw [hnil]
          rfl
        · cases hfind : rels.find? (fun r => r.release_tag == entry.target_release_tag) with
          | none =>
            rw [hfind] at hne
            exact absurd rfl hne
          | some published =>
            refine ⟨published, List.mem_of_find?_eq_some hfind, ?_⟩
            have := List.find?_some hfind
            simpa using this
  · rw [_check_published_plan_diverged]
    split_ifs
    · simp
    · simp
    · split
      · simp
      · split
        · simp
        · simp
  · intro published hst htag hapis hfind
    rw [_check_published_plan_diverged, if_neg (by simp [hst]),
      if_neg (by simp [htag, hapis]), hfind]
    dsimp only
    rw [published_versions_eq_spec published]

/-- C6 counterexample: the published release records API `x` with an
empty version string, whose stripped base `""` is non-null and differs
from the planned `1.0.0`, yet the check emits nothing because the code
requires a truthy (non-empty) base version. -/
theorem C6_counterexample :
    entryC6.state = ProgressState.PUBLISHED ∧
    entryC6.target_release_tag = some "r1" ∧
    entryC6.apis = [⟨"x", "1.0.0", "rc", []⟩] ∧
    releaseC6.release_tag = some "r1" ∧
    specPublishedBase releaseC6 "x" = some "" ∧
    _check_published_plan_diverged entryC6 relsC6 = [] :=
  ⟨rfl, rfl, rfl, rfl, by decide, by decide⟩

/-- C6 witness: the specification examples, through the theorem: one
mismatching API yields exactly one W001 warning naming both versions, and
a pre-release suffix is stripped before comparison. -/
theorem C6_witness :
    _check_published_plan_diverged entryC6w [relC6w] =
      [⟨"W001", "Plan targets x 2.0.0 but r1 published 1.1.0", "warning"⟩] ∧
    _check_published_plan_diverged entryC6rc [relC6rc] = [] := by
  constructor
  · have h := (C6_w001 entryC6w [relC6w]).2.2 relC6w (by decide) (by decide)
      (by decide) (by decide)
    rw [h]
    decide
  · have h := (C6_w001 entryC6rc [relC6rc]).2.2 relC6rc (by decide) (by decide)
      (by decide) (by decide)
    rw [h]
    decide

/-! ### Claim C7 -/

/-- C7 (amended): `build_meta_release_summaries` is deterministic and its
counts are order-independent under permutation of the entries; each
non-empty cycle key carries exactly the additive sums — only entries with
a non-null, non-empty cycle id contribute, each adding its planned-API
count and, per milestone that is present with a truthy release tag, its
count of truthy api versions — and the empty string is never a key. -/
theorem C7_build_summaries (l l' : List ProgressEntry) (k : String) (hperm : l.Perm l') :
    build_meta_release_summaries l = build_meta_release_summaries l
  ∧ lookupCounts (build_meta_release_summaries l) k =
      lookupCounts (build_meta_release_summaries l') k
  ∧ (k ≠ "" → lookupCounts (build_meta_release_summaries l) k =
      (if (l.filter (fun e => e.meta_release == some k)).isEmpty = true then none
       else some (sumContrib k l)))
  ∧ lookupCounts (build_meta_release_summaries l) "" = none :=
  ⟨rfl, lookupCounts_build_perm l l' hperm k, lookupCounts_build l k,
   lookupCounts_build_empty_key l⟩

/-- C7 counterexample: an entry with a non-null (empty-string) cycle id
and one planned API contributes nothing at all: the summaries dict stays
empty instead of counting the API under its cycle. -/
theorem C7_counterexample :
    entryC7.meta_release = some "" ∧
    entryC7.apis.length = 1 ∧
    build_meta_release_summaries [entryC7] = [] :=
  ⟨rfl, rfl, rfl⟩

/-- C7 witness: two entries of one cycle, summed identically under both
orders, with the expected counts. -/
theorem C7_witness :
    lookupCounts (build_meta_release_summaries [entryA, entryB]) "Sync26" =
      lookupCounts (build_meta_release_summaries [entryB, entryA]) "Sync26" ∧
    lookupCounts (build_meta_release_summaries [entryA, entryB]) "Sync26" =
      some ⟨3, 1, 0, 0⟩ := by
  have h := C7_build_summaries [entryA, entryB] [entryB, entryA] "Sync26"
    (List.Perm.swap entryB entryA [])
  refine ⟨h.2.1, ?_⟩
  rw [h.2.2.1 (by decide)]
  decide

/-! ### Claim C9 -/

/-- C9 (amended): the orphan check fires exactly when the state is
`NOT_PLANNED` and the snapshot branch is non-null and non-empty, in which
case it yields exactly one `W002` warning whose message contains the
branch name; otherwise it yields nothing. -/
theorem C9_orphaned_snapshot (entry : ProgressEntry) (rels : List Release) :
    ((_check_orphaned_snapshot entry rels ≠ []) ↔
      (entry.state = ProgressState.NOT_PLANNED ∧
        ∃ b, entry.artifacts.snapshot_branch = some b ∧ b ≠ ""))
  ∧ (∀ b, entry.state = ProgressState.NOT_PLANNED →
      entry.artifacts.snapshot_branch = some b → b ≠ "" →
      ∃ w, _check_orphaned_snapshot entry rels = [w] ∧ w.code = "W002" ∧
        substrB b w.message = true ∧ w.severity = "warning") := by
  constructor
  · constructor
    · intro hne
      rw [_check_orphaned_snapshot] at hne
      by_cases hst : entry.state ≠ ProgressState.NOT_PLANNED
      · rw [if_pos hst] at hne
        exact absurd rfl hne
      · rw [if_neg hst] at hne
        push_neg at hst
        refine ⟨hst, ?_⟩
        cases hsb : entry.artifacts.snapshot_branch with
        | none => simp [hsb, optTruthy] at hne
        | some b =>
          by_cases hb : b = ""
          · subst hb
            simp [hsb, optTruthy] at hne
          · exact ⟨b, rfl, hb⟩
    · rintro ⟨hst, b, hsb, hb⟩
      rw [_check_orphaned_snapshot, if_neg (by simp [hst]),
        if_pos (by simp [hsb, optTruthy, hb])]
      simp
  · intro b hst hsb hb
    rw [_check_orphaned_snapshot, if_neg (by simp [hst]),
      if_pos (by simp [hsb, optTruthy, hb])]
    refine ⟨_, rfl, rfl, ?_, rfl⟩
    rw [hsb]
    exact substrB_parts "Snapshot branch " b " exists but release type is \x27none\x27"

/-- C9 counterexample: a non-null but empty snapshot branch on a
not-planned entry produces no warning, although the claim as stated
requires one for every non-null branch. -/
theorem C9_counterexample :
    entryC9.state = ProgressState.NOT_PLANNED ∧
    entryC9.artifacts.snapshot_branch = some "" ∧
    _check_orphaned_snapshot entryC9 [] = [] :=
  ⟨rfl, rfl, rfl⟩

/-- C9 witness: the specification example, through the theorem. -/
theorem C9_witness :
    ∃ w, _check_orphaned_snapshot entryC9w [] = [w] ∧ w.code = "W002" ∧
      substrB "release-snapshot/r4.1-abc123" w.message = true ∧ w.severity = "warning" :=
  (C9_orphaned_snapshot entryC9w []).2 "release-snapshot/r4.1-abc123" rfl rfl (by decide)

/-! ### Claim C10 -/

/-- C10 (amended): in milestone selection a dateless release is keyed as
the empty string; hence whenever the candidates of the requested type
contain a dateless release and every dated candidate has a non-empty
date, the first dateless candidate in input order is chosen, its tag and
null date populating the milestone. -/
theorem C10_dateless_first (cycle : List Release) (kind : String) (planned : List String)
    (e : Release)
    (hfind : (cycle.filter (fun r => r.release_type == some kind)).find?
        (fun r => r.release_date == (none : Option String)) = some e)
    (hne : ∀ r ∈ cycle.filter (fun r => r.release_type == some kind),
        ∀ s, r.release_date = some s → s ≠ "") :
    dateKey e = "" ∧
    (_find_earliest_by_type cycle kind planned).release_tag = e.release_tag ∧
    (_find_earliest_by_type cycle kind planned).release_date = none := by
  have hdate : e.release_date = none := by
    have := List.find?_some hfind
    simpa using this
  have hkey : dateKey e = "" := by rw [dateKey, hdate]; rfl
  refine ⟨hkey, ?_⟩
  rw [find_earliest_eq_spec, specMilestone]
  cases hm : cycle.filter (fun r => r.release_type == some kind) with
  | nil =>
    rw [hm] at hfind
    exact absurd hfind (by simp)
  | cons m rest =>
    rw [hm] at hfind hne
    have hconv : (m :: rest).find? (fun r => decide (dateKey r = "")) = some e := by
      rw [← hfind]
      apply find?_congr_pred
      intro x hx
      cases hxd : x.release_date with
      | none => simp [dateKey, hxd, pyStr]
      | some s =>
        have hs : s ≠ "" := hne x hx s hxd
        simp [dateKey, hxd, pyStr, hs]
    have hmin := minFirst_of_find?_dateless rest m e hconv
    dsimp only
    rw [hmin, hdate]
    exact ⟨rfl, rfl⟩

/-- C10 counterexample: with an empty-string-dated release first and a
dateless release second among the candidates, the empty-dated release is
chosen, not the dateless one; the claim as stated promises the dateless
release. -/
theorem C10_counterexample :
    relC10b.release_date = none ∧
    relC10a.release_date = some "" ∧
    relC10b.release_tag = some "b" ∧
    (_find_earliest_by_type [relC10a, relC10b] "public-release" []).release_tag = some "a" ∧
    (_find_earliest_by_type [relC10a, relC10b] "public-release" []).release_date = some "" := by
  have hfil : [relC10a, relC10b].filter (fun r => r.release_type == some "public-release") =
      [relC10a, relC10b] := rfl
  have hnotlt : ¬ dateKey relC10b < dateKey relC10a := by
    have h1 : dateKey relC10b = "" := rfl
    have h2 : dateKey relC10a = "" := rfl
    rw [h1, h2]
    exact lt_irrefl _
  have hmin : minFirst relC10a [relC10b] = relC10a := by
    rw [minFirst_cons, if_neg hnotlt, minFirst_nil]
  have hspec : _find_earliest_by_type [relC10a, relC10b] "public-release" [] =
      { release_tag := relC10a.release_tag, release_date := relC10a.release_date,
        apis := [] } := by
    rw [find_earliest_eq_spec]
    unfold specMilestone
    rw [hfil]
    dsimp only
    rw [hmin]
    rfl
  refine ⟨rfl, rfl, rfl, ?_, ?_⟩
  · rw [hspec]
    rfl
  · rw [hspec]
    rfl

/-- C10 witness: a dated and a dateless candidate, through the theorem. -/
theorem C10_witness :
    dateKey relC10b = "" ∧
    (_find_earliest_by_type [relC10c, relC10b] "public-release" []).release_tag = some "b" ∧
    (_find_earliest_by_type [relC10c, relC10b] "public-release" []).release_date = none := by
  apply C10_dateless_first [relC10c, relC10b] "public-release" [] relC10b (by decide)
  intro r hr s hs
  have hr2 : r = relC10c ∨ r = relC10b := by
    have := (List.mem_filter.mp hr).1
    simpa using this
  rcases hr2 with hr2 | hr2 <;> subst hr2
  · have h1 : (some "2026-01-01" : Option String) = some s := hs
    have h2 : s = "2026-01-01" := (Option.some.inj h1).symm
    subst h2
    decide
  · exact Option.noConfusion hs

end ReleaseProgress
